import Mathlib

/-!
Shallow embedding of `src/kernel/smi2021_bl.c` (SMI2021 / EasyCAP bootloader):
the firmware-upload control-transfer protocol (`smi2021_load_firmware`), the
catalog probe (`smi2021_bootloader_probe`), the selection logic
(`smi2021_choose_firmware`) and the teardown (`smi2021_bootloader_disconnect`).

The transport (`usb_control_msg`) is modelled by a `Device` supplying the
return code and reply bytes of the handshake read and the return code of each
control write; the trace of issued transfers is made explicit.  The driver's
file-scope mutable state (`available_fw[]`, `firmware[]`, `firmwares`) is a
`BLState` threaded through the functions.  `kzalloc` is assumed to succeed.
-/

/-- FIRMWARE_CHUNK_SIZE from smi2021_bl.c. -/
def FIRMWARE_CHUNK_SIZE : Nat := 62

/-- FIRMWARE_HEADER_SIZE from smi2021_bl.c. -/
def FIRMWARE_HEADER_SIZE : Nat := 2

/-- Linux errno constant ENODEV (the driver returns -ENODEV). -/
def ENODEV : Int := 19

/-- Linux errno constant ENOENT (`request_firmware` returns -ENOENT when the
    file does not exist). -/
def ENOENT : Int := 2

/-- Effect of `__cpu_to_be16` applied to a host `u16` that was filled from the
    two wire bytes of the handshake reply.  On a little-endian host the `u16`
    holds `b0 + 256*b1` and `__cpu_to_be16` swaps the bytes, so the compared
    value is `b0*256 + b1` - the big-endian reading of the reply (the same
    composite value arises on a big-endian host). -/
def cpu_to_be16 (x : Nat) : Nat := (x % 256) * 256 + (x / 256) % 256

/-- One USB control transfer as issued through `usb_control_msg`: a
    device-to-host read (with requested length) or a host-to-device write
    carrying its payload bytes.  `request`, `value`, `index` are the vendor
    request parameters. -/
inductive Xfer where
  | ctrlRead (request value index len : Nat)
  | ctrlWrite (request value index : Nat) (data : List Nat)
deriving DecidableEq

/-- The device/transport as observed through `usb_control_msg` during one
    upload: return code of the handshake read, the two reply bytes it stores,
    and the return code of the k-th control write issued. -/
structure Device where
  readRc : Int
  reply0 : Nat
  reply1 : Nat
  writeRc : Nat → Int

/-- The handshake read: request 0x01, value 0x0001, index 0x0000, 2 bytes. -/
def handshakeXfer : Xfer := .ctrlRead 0x01 0x0001 0x0000 2

/-- The i-th chunk write: request 0x01, value 0x0005, index 0x0000, payload =
    the 2-byte header 0x05 0xff followed by the i-th 62-byte slice of the
    image. -/
def chunkXfer (data : List Nat) (i : Nat) : Xfer :=
  .ctrlWrite 0x01 0x0005 0x0000
    ([0x05, 0xff] ++ (data.drop (i * FIRMWARE_CHUNK_SIZE)).take FIRMWARE_CHUNK_SIZE)

/-- The completion write: request 0x01, value 0x0007, index 0x0000, payload =
    the two bytes of the little-endian 16-bit value 0x0007. -/
def completionXfer : Xfer := .ctrlWrite 0x01 0x0007 0x0000 [0x07, 0x00]

/-- The chunk-upload for-loop of `smi2021_load_firmware`: `m` chunks remain
    and the next one has index `i`.  Yields `some rc` when a write fails with
    `rc < 0` (the loop is abandoned at once) or `none` when every remaining
    write succeeds, together with the control writes issued, in order. -/
def chunkLoop (dev : Device) (data : List Nat) : Nat → Nat → Option Int × List Xfer
  | 0, _ => (none, [])
  | m + 1, i =>
    if dev.writeRc i < 0 then (some (dev.writeRc i), [chunkXfer data i])
    else
      let r := chunkLoop dev data m (i + 1)
      (r.1, chunkXfer data i :: r.2)

/-- `struct smi2021_firmware`: id, file name, and the mutable `found` slot
    (-1 = absent; the C initializer leaves `found` zero-initialized). -/
structure Fw where
  id : Nat
  name : String
  found : Int
deriving DecidableEq

/-- The `available_fw` table from smi2021_bl.c (`found` zero-initialized). -/
def available_fw : List Fw :=
  [⟨0x3c, "smi2021_3c.bin", 0⟩, ⟨0x3e, "smi2021_3e.bin", 0⟩, ⟨0x3f, "smi2021_3f.bin", 0⟩]

/-- The driver's file-scope mutable state: the descriptor table
    `available_fw`, the loaded-image array `firmware[3]` (`none` = NULL slot)
    and the counter `firmwares`. -/
structure BLState where
  avail : List Fw
  firmware : List (Option (List Nat))
  firmwares : Int
deriving DecidableEq

/-- The state at module load: `found` fields 0 (zero-initialized), all image
    slots NULL, `firmwares = -1`. -/
def initState : BLState := ⟨available_fw, [none, none, none], -1⟩

/-- `smi2021_load_firmware`.  Returns the C return value `rc`, the control
    transfers issued in order, and the (untouched) file-scope state.  A NULL
    `udev` returns 0 with no transfers; a NULL or wrongly-sized image returns
    -ENODEV before any transfer; a handshake whose transport call fails, or
    whose reply byte-swapped is not 0x0107, stops after the single handshake
    read - in the wrong-value case `rc` still holds the read's non-negative
    return value; otherwise each 62-byte slice is written in order and a
    completion write follows, after which `rc` is set to 0. -/
def smi2021_load_firmware (st : BLState) (udev : Option Device)
    (fw : Option (List Nat)) : Int × List Xfer × BLState :=
  match udev with
  | none => (0, [], st)
  | some dev =>
    match fw with
    | none => (-ENODEV, [], st)
    | some data =>
      if data.length % FIRMWARE_CHUNK_SIZE ≠ 0 then (-ENODEV, [], st)
      else if dev.readRc < 0 then (dev.readRc, [handshakeXfer], st)
      else if cpu_to_be16 (dev.reply0 + 256 * dev.reply1) ≠ 0x0107 then
        (dev.readRc, [handshakeXfer], st)
      else
        match chunkLoop dev data (data.length / FIRMWARE_CHUNK_SIZE) 0 with
        | (some e, ws) => (e, handshakeXfer :: ws, st)
        | (none, ws) =>
          if dev.writeRc (data.length / FIRMWARE_CHUNK_SIZE) < 0 then
            (dev.writeRc (data.length / FIRMWARE_CHUNK_SIZE),
              handshakeXfer :: (ws ++ [completionXfer]), st)
          else (0, handshakeXfer :: (ws ++ [completionXfer]), st)

/-- Outcome of `request_firmware` for one file name: success with the image
    bytes, or a failure code (failures are negative in the kernel API;
    -ENOENT means the file does not exist). -/
inductive LoadResult where
  | ok (data : List Nat)
  | fail (e : Int)
deriving DecidableEq

/-- The probe loop of `smi2021_bootloader_probe` over the descriptor table:
    `request_firmware` success stores the image at slot `firmwares + 1`,
    increments `firmwares` and records the slot on the descriptor; -ENOENT
    marks the descriptor absent and continues; any other failure aborts the
    loop at once (`goto err_out`), yielding `some e` and leaving the remaining
    descriptors and the tables as they were. -/
def probeLoop (L : String → LoadResult) :
    List Fw → List (Option (List Nat)) → Int →
      Option Int × List Fw × List (Option (List Nat)) × Int
  | [], fwt, c => (none, [], fwt, c)
  | f :: rest, fwt, c =>
    match L f.name with
    | .ok d =>
      let r := probeLoop L rest (fwt.set (c + 1).toNat (some d)) (c + 1)
      (r.1, ⟨f.id, f.name, c + 1⟩ :: r.2.1, r.2.2)
    | .fail e =>
      if e = -ENOENT then
        let r := probeLoop L rest fwt c
        (r.1, ⟨f.id, f.name, -1⟩ :: r.2.1, r.2.2)
      else (some e, f :: rest, fwt, c)

/-- The probe loop run from the module-load state over the whole catalog. -/
def probeAll (L : String → LoadResult) : Option Int × BLState :=
  let r := probeLoop L initState.avail initState.firmware initState.firmwares
  (r.1, ⟨r.2.1, r.2.2.1, r.2.2.2⟩)

/-- The loop of `smi2021_choose_firmware`: the first descriptor whose id
    equals the `firmware_version` module parameter and whose `found` slot is
    set (`found >= 0`) wins. -/
def chooseLoop (pref : Nat) : List Fw → Option Int
  | [] => none
  | f :: rest =>
    if pref = f.id ∧ 0 ≤ f.found then some f.found else chooseLoop pref rest

/-- The decision taken after a completed probe loop, split exactly along the
    branches of `smi2021_bootloader_probe`: `firmwares < 0` means no firmware
    at all; `firmwares = 0` uploads `firmware[0]` automatically; otherwise
    `smi2021_choose_firmware` either picks the preferred descriptor's recorded
    slot or does nothing (user action required). -/
inductive SelectResult where
  | noFw
  | auto (fw : Option (List Nat))
  | chosen (fw : Option (List Nat))
  | ambiguous
deriving DecidableEq

/-- The selection branch structure of `smi2021_bootloader_probe` lines 210-221
    together with the loop of `smi2021_choose_firmware`. -/
def smi2021_select (pref : Nat) (st : BLState) : SelectResult :=
  if st.firmwares < 0 then .noFw
  else if st.firmwares = 0 then .auto (st.firmware.getD 0 none)
  else
    match chooseLoop pref st.avail with
    | some slot => .chosen (st.firmware.getD slot.toNat none)
    | none => .ambiguous

/-- `smi2021_bootloader_probe`: run the probe loop, then act on the selection.
    An aborted loop propagates its error (`goto err_out`); nothing found
    returns -ENODEV; the automatic single-firmware upload propagates a
    negative upload `rc`; a preference-chosen upload's `rc` is discarded (the
    C code ignores `smi2021_choose_firmware`'s return value and returns 0);
    ambiguity returns 0 with no upload. -/
def smi2021_bootloader_probe (L : String → LoadResult) (pref : Nat)
    (dev : Device) (st : BLState) : Int × List Xfer × BLState :=
  let r := probeLoop L st.avail st.firmware st.firmwares
  let st2 : BLState := ⟨r.2.1, r.2.2.1, r.2.2.2⟩
  match r.1 with
  | some e => (e, [], st2)
  | none =>
    match smi2021_select pref st2 with
    | .noFw => (-ENODEV, [], st2)
    | .auto fwOpt =>
      let u := smi2021_load_firmware st2 (some dev) fwOpt
      if u.1 < 0 then u else (0, u.2.1, u.2.2)
    | .chosen fwOpt =>
      let u := smi2021_load_firmware st2 (some dev) fwOpt
      (0, u.2.1, u.2.2)
    | .ambiguous => (0, [], st2)

/-- The loop of `smi2021_bootloader_disconnect`: every descriptor whose
    `found` slot is set has that firmware slot released (set to NULL) and its
    `found` reset to -1; the released slot indices are collected in loop
    order. -/
def disconnectLoop : List Fw → List (Option (List Nat)) →
    List Fw × List (Option (List Nat)) × List Nat
  | [], fwt => ([], fwt, [])
  | f :: rest, fwt =>
    if 0 ≤ f.found then
      let r := disconnectLoop rest (fwt.set f.found.toNat none)
      (⟨f.id, f.name, -1⟩ :: r.1, r.2.1, f.found.toNat :: r.2.2)
    else
      let r := disconnectLoop rest fwt
      (f :: r.1, r.2)

/-- `smi2021_bootloader_disconnect`: run the release loop and reset
    `firmwares` to -1; the released slot indices are also returned. -/
def smi2021_bootloader_disconnect (st : BLState) : BLState × List Nat :=
  let r := disconnectLoop st.avail st.firmware
  (⟨r.1, r.2.1, -1⟩, r.2.2)

/-- The image `request_firmware` yields for a name, if any. -/
def okOf (L : String → LoadResult) (name : String) : Option (List Nat) :=
  match L name with
  | .ok d => some d
  | .fail _ => none

/-- The images of the present variants, in catalog (registration) order. -/
def oksOf (L : String → LoadResult) : List (List Nat) :=
  available_fw.filterMap (fun f => okOf L f.name)

/-- The ids of the present variants. -/
def presentIds (L : String → LoadResult) : List Nat :=
  available_fw.filterMap (fun f =>
    match okOf L f.name with
    | some _ => some f.id
    | none => none)

/-- The image loaded for the catalog descriptor with the given id, if that
    variant is present. -/
def imageFor (L : String → LoadResult) (i : Nat) : Option (List Nat) :=
  match available_fw.find? (fun f => f.id == i) with
  | some f => okOf L f.name
  | none => none

/-- A concrete device whose handshake read succeeds returning 2 bytes with
    reply bytes 0x01 0x07 (the expected acknowledgement) and whose writes all
    succeed (returning the transfer size 64). -/
def devGood : Device := ⟨2, 0x01, 0x07, fun _ => 64⟩

/-- A concrete device whose handshake read succeeds (rc = 2 bytes) but whose
    reply bytes 0x01 0x08 read big-endian as 0x0108, not 0x0107. -/
def devBadAck : Device := ⟨2, 0x01, 0x08, fun _ => 64⟩

/-- C10: a NULL device makes `smi2021_load_firmware` return 0 (success) with
    no control transfers issued and the host state untouched, for every image
    argument - the `udev == NULL` path jumps to `end_out` with `rc = 0`. -/
theorem upload_null_device_returns_zero (st : BLState) (fw : Option (List Nat)) :
    smi2021_load_firmware st none fw = (0, [], st) := rfl

/-- C9: `smi2021_load_firmware` never changes the host-side state - the
    descriptor table, loaded-image table and found counter after the call are
    the ones passed in, on every path (success or failure). -/
theorem upload_preserves_host_state (st : BLState) (udev : Option Device)
    (fw : Option (List Nat)) : (smi2021_load_firmware st udev fw).2.2 = st := by
  unfold smi2021_load_firmware
  rcases udev with _ | dev
  · rfl
  rcases fw with _ | data
  · rfl
  dsimp only
  split
  · rfl
  split
  · rfl
  split
  · rfl
  split
  · rfl
  split <;> rfl

/-- C2: an image whose length is not a multiple of 62 makes
    `smi2021_load_firmware` return -ENODEV with zero control transfers - the
    size check precedes the handshake and every write. -/
theorem upload_size_invalid (st : BLState) (dev : Device) (data : List Nat)
    (h : data.length % FIRMWARE_CHUNK_SIZE ≠ 0) :
    smi2021_load_firmware st (some dev) (some data) = (-ENODEV, [], st) := by
  simp [smi2021_load_firmware, h]

/-- Witness for `upload_size_invalid`: a 1-byte image is rejected before any
    transfer. -/
theorem upload_size_invalid_witness :
    (List.replicate 1 9).length % FIRMWARE_CHUNK_SIZE ≠ 0 ∧
      smi2021_load_firmware initState (some devGood) (some (List.replicate 1 9)) =
        (-ENODEV, [], initState) :=
  ⟨by decide, upload_size_invalid initState devGood (List.replicate 1 9) (by decide)⟩

/-- C1 (bug evidence): with a handshake reply reading big-endian 0x0108
    (not 0x0107) and a well-sized image, the upload aborts after exactly the
    one handshake read and issues no writes, but the returned `rc` is 2 - the
    non-negative byte count of the handshake read, kept from the
    `usb_control_msg` call - so the wrong-acknowledgement abort is not
    reported as an error to the caller (who tests `rc < 0`). -/
theorem upload_wrong_ack_not_reported_as_error :
    cpu_to_be16 (devBadAck.reply0 + 256 * devBadAck.reply1) = 0x0108 ∧
      smi2021_load_firmware initState (some devBadAck) (some (List.replicate 62 0)) =
        (2, [handshakeXfer], initState) ∧
      ¬ (smi2021_load_firmware initState (some devBadAck)
          (some (List.replicate 62 0))).1 < 0 := by
  refine ⟨by decide, by decide, by decide⟩

/-- When every write succeeds, the chunk loop issues its m writes at indices
    i, i+1, ..., i+m-1 in order and reports no error. -/
theorem chunkLoop_success (dev : Device) (data : List Nat)
    (hw : ∀ j, 0 ≤ dev.writeRc j) :
    ∀ m i, chunkLoop dev data m i =
      (none, (List.range m).map (fun k => chunkXfer data (i + k))) := by
  intro m
  induction m with
  | zero => intro i; rfl
  | succ m ih =>
    intro i
    have hnot : ¬ dev.writeRc i < 0 := not_lt.mpr (hw i)
    simp only [chunkLoop, hnot, if_false, ih (i + 1)]
    simp [List.range_succ_eq_map, List.map_map, Function.comp, Nat.add_assoc,
      Nat.add_comm 1]

/-- When writes at indices i, ..., i0+m-1 succeed up to (not including) the
    first failing index i and the write at i fails, the chunk loop stops at i,
    having issued exactly the writes i0 .. i. -/
theorem chunkLoop_fail (dev : Device) (data : List Nat) (i : Nat)
    (hfail : dev.writeRc i < 0) :
    ∀ m i0, i0 ≤ i → i < i0 + m → (∀ j, i0 ≤ j → j < i → 0 ≤ dev.writeRc j) →
      chunkLoop dev data m i0 =
        (some (dev.writeRc i),
          (List.range (i - i0 + 1)).map (fun k => chunkXfer data (i0 + k))) := by
  intro m
  induction m with
  | zero => intro i0 h1 h2; omega
  | succ m ih =>
    intro i0 h1 h2 hok
    rcases eq_or_lt_of_le h1 with rfl | hlt
    · simp [chunkLoop, hfail, List.range_succ]
    · have hnot : ¬ dev.writeRc i0 < 0 := not_lt.mpr (hok i0 le_rfl hlt)
      have hrec := ih (i0 + 1) hlt (by omega) (fun j hj hj2 => hok j (by omega) hj2)
      have hi : i - i0 + 1 = (i - (i0 + 1) + 1) + 1 := by omega
      simp only [chunkLoop, hnot, if_false, hrec, hi, List.range_succ_eq_map]
      simp [List.map_map, Function.comp, Nat.add_assoc, Nat.add_comm 1]

/-- C3: with a live device, an image of length 62*N (N positive), a handshake
    read that succeeds with reply bytes 0x01 0x07 (big-endian 0x0107) and a
    transport that accepts every write, `smi2021_load_firmware` issues the
    handshake read, then exactly N chunk writes in ascending index order (each
    request 0x01, value 0x0005, index 0x0000, payload 0x05 0xff plus the i-th
    62-byte slice), then exactly one completion write (request 0x01, value
    0x0007, index 0x0000, payload little-endian 0x0007), and returns 0. -/
theorem upload_success_trace (st : BLState) (dev : Device) (data : List Nat)
    (N : Nat) (hN : 0 < N) (hlen : data.length = 62 * N)
    (hr : 0 ≤ dev.readRc) (hb0 : dev.reply0 = 0x01) (hb1 : dev.reply1 = 0x07)
    (hw : ∀ j, 0 ≤ dev.writeRc j) :
    smi2021_load_firmware st (some dev) (some data) =
      (0, handshakeXfer ::
        ((List.range N).map (chunkXfer data) ++ [completionXfer]), st) := by
  have hmod : data.length % FIRMWARE_CHUNK_SIZE = 0 := by
    simp [hlen, FIRMWARE_CHUNK_SIZE, Nat.mul_mod_right]
  have hdiv : data.length / FIRMWARE_CHUNK_SIZE = N := by
    simp [hlen, FIRMWARE_CHUNK_SIZE, Nat.mul_div_cancel_left]
  have hack : cpu_to_be16 (dev.reply0 + 256 * dev.reply1) = 0x0107 := by
    simp [hb0, hb1, cpu_to_be16]
  have hloop := chunkLoop_success dev data hw N 0
  simp only [smi2021_load_firmware, hmod, hdiv, hack, hloop,
    not_lt.mpr (hw N), not_lt.mpr hr]
  simp

/-- Witness for `upload_success_trace`: a 62-byte image against `devGood`
    produces the read, one chunk write and the completion write. -/
theorem upload_success_trace_witness :
    smi2021_load_firmware initState (some devGood) (some (List.replicate 62 9)) =
      (0, handshakeXfer ::
        ((List.range 1).map (chunkXfer (List.replicate 62 9)) ++ [completionXfer]),
        initState) :=
  upload_success_trace initState devGood (List.replicate 62 9) 1 (by decide)
    (by decide) (by decide) rfl rfl (fun j => by show (0 : Int) ≤ 64; decide)

/-- C4: if the handshake succeeded and the chunk write at index i is the first
    to fail (i < N, all earlier writes accepted), `smi2021_load_firmware`
    returns that write's negative error code at once; the trace is the
    handshake read followed by the chunk writes 0 .. i only - the failing
    chunk is not retried and no later chunk write nor the completion write is
    issued. -/
theorem upload_chunk_write_failure (st : BLState) (dev : Device)
    (data : List Nat) (N i : Nat) (hlen : data.length = 62 * N) (hi : i < N)
    (hr : 0 ≤ dev.readRc) (hb0 : dev.reply0 = 0x01) (hb1 : dev.reply1 = 0x07)
    (hw : ∀ j, j < i → 0 ≤ dev.writeRc j) (hfail : dev.writeRc i < 0) :
    smi2021_load_firmware st (some dev) (some data) =
      (dev.writeRc i,
        handshakeXfer :: (List.range (i + 1)).map (chunkXfer data), st) := by
  have hmod : data.length % FIRMWARE_CHUNK_SIZE = 0 := by
    simp [hlen, FIRMWARE_CHUNK_SIZE, Nat.mul_mod_right]
  have hdiv : data.length / FIRMWARE_CHUNK_SIZE = N := by
    simp [hlen, FIRMWARE_CHUNK_SIZE, Nat.mul_div_cancel_left]
  have hack : cpu_to_be16 (dev.reply0 + 256 * dev.reply1) = 0x0107 := by
    simp [hb0, hb1, cpu_to_be16]
  have hloop := chunkLoop_fail dev data i hfail N 0 (Nat.zero_le i)
    (by omega) (fun j hj hj2 => hw j hj2)
  simp only [smi2021_load_firmware, hmod, hdiv, hack, hloop,
    not_lt.mpr hr]
  simp

/-- A device whose handshake succeeds, whose first chunk write is accepted and
    whose second write fails with -71 (-EPROTO). -/
def devFailSecond : Device := ⟨2, 0x01, 0x07, fun j => if j = 0 then 64 else -71⟩

/-- Witness for `upload_chunk_write_failure`: a 124-byte image (N = 2) whose
    second chunk write fails stops after the read and chunk writes 0 and 1. -/
theorem upload_chunk_write_failure_witness :
    smi2021_load_firmware initState (some devFailSecond)
        (some (List.replicate 124 9)) =
      (devFailSecond.writeRc 1,
        handshakeXfer ::
          (List.range 2).map (chunkXfer (List.replicate 124 9)), initState) :=
  upload_chunk_write_failure initState devFailSecond (List.replicate 124 9) 2 1
    (by decide) (by decide) (by decide) rfl rfl
    (fun j hj => by interval_cases j <;> decide) (by decide)

/-- C7: one step of the probe loop.  A -ENOENT ("file not found") outcome
    marks the descriptor absent (found := -1) and the loop continues over the
    remaining descriptors with tables untouched; any other failure code makes
    the loop abort on the spot, propagating that code, with the failing and
    the remaining descriptors and both tables left as they were. -/
theorem probe_notfound_skips_fatal_aborts (L : String → LoadResult) (f : Fw)
    (rest : List Fw) (fwt : List (Option (List Nat))) (c : Int) :
    (L f.name = .fail (-ENOENT) →
      probeLoop L (f :: rest) fwt c =
        ((probeLoop L rest fwt c).1,
          ⟨f.id, f.name, -1⟩ :: (probeLoop L rest fwt c).2.1,
          (probeLoop L rest fwt c).2.2)) ∧
    (∀ e, L f.name = .fail e → e ≠ -ENOENT →
      probeLoop L (f :: rest) fwt c = (some e, f :: rest, fwt, c)) := by
  constructor
  · intro h
    simp [probeLoop, h]
  · intro e h hne
    simp [probeLoop, h, hne]

/-- A loader with only the 0x3c and 0x3f variants present (the 0x3e file is
    missing, -ENOENT). -/
def loaderTwo : String → LoadResult := fun s =>
  if s = "smi2021_3c.bin" then .ok (List.replicate 62 1)
  else if s = "smi2021_3f.bin" then .ok (List.replicate 62 3)
  else .fail (-2)

/-- A loader whose very first request fails fatally (-12, i.e. -ENOMEM). -/
def loaderFatal : String → LoadResult := fun s =>
  if s = "smi2021_3c.bin" then .fail (-12) else .fail (-2)

/-- Witness for `probe_notfound_skips_fatal_aborts`: a missing 0x3e file is
    marked absent and skipped; a fatal -12 on the first descriptor aborts the
    whole loop unchanged. -/
theorem probe_notfound_skips_fatal_aborts_witness :
    (probeLoop loaderTwo [⟨0x3e, "smi2021_3e.bin", 0⟩] [none, none, none] (-1) =
      ((probeLoop loaderTwo [] [none, none, none] (-1)).1,
        ⟨0x3e, "smi2021_3e.bin", -1⟩ ::
          (probeLoop loaderTwo [] [none, none, none] (-1)).2.1,
        (probeLoop loaderTwo [] [none, none, none] (-1)).2.2)) ∧
    probeLoop loaderFatal available_fw [none, none, none] (-1) =
      (some (-12), available_fw, [none, none, none], -1) :=
  ⟨(probe_notfound_skips_fatal_aborts loaderTwo ⟨0x3e, "smi2021_3e.bin", 0⟩ []
      [none, none, none] (-1)).1 rfl,
   (probe_notfound_skips_fatal_aborts loaderFatal ⟨0x3c, "smi2021_3c.bin", 0⟩
      [⟨0x3e, "smi2021_3e.bin", 0⟩, ⟨0x3f, "smi2021_3f.bin", 0⟩]
      [none, none, none] (-1)).2 (-12) rfl (by decide)⟩

/-- If the probe loop ran to the end without aborting, every visited
    descriptor's load result was success or exactly -ENOENT. -/
theorem probeLoop_none_of_mem (L : String → LoadResult) :
    ∀ avail fwt c, (probeLoop L avail fwt c).1 = none →
      ∀ f ∈ avail, L f.name = .fail (-ENOENT) ∨ ∃ d, L f.name = .ok d := by
  intro avail
  induction avail with
  | nil =>
    intro fwt c h f hf
    simp at hf
  | cons g rest ih =>
    intro fwt c h f hf
    rcases hg : L g.name with d | e
    · simp only [probeLoop, hg] at h
      rcases List.mem_cons.mp hf with rfl | hf2
      · exact Or.inr ⟨d, hg⟩
      · exact ih _ _ h f hf2
    · by_cases he : e = -ENOENT
      · subst he
        simp only [probeLoop, hg, if_pos rfl] at h
        rcases List.mem_cons.mp hf with rfl | hf2
        · exact Or.inl hg
        · exact ih _ _ h f hf2
      · exfalso
        simp [probeLoop, hg, he] at h

/-- Specialization of `probeLoop_none_of_mem` to the three catalog names. -/
theorem loader_cases (L : String → LoadResult) (hok : (probeAll L).1 = none) :
    (L "smi2021_3c.bin" = .fail (-2) ∨ ∃ d, L "smi2021_3c.bin" = .ok d) ∧
    (L "smi2021_3e.bin" = .fail (-2) ∨ ∃ d, L "smi2021_3e.bin" = .ok d) ∧
    (L "smi2021_3f.bin" = .fail (-2) ∨ ∃ d, L "smi2021_3f.bin" = .ok d) := by
  have h := probeLoop_none_of_mem L available_fw [none, none, none] (-1) hok
  refine ⟨?_, ?_, ?_⟩
  · have := h ⟨0x3c, "smi2021_3c.bin", 0⟩ (by simp [available_fw])
    simpa [ENOENT] using this
  · have := h ⟨0x3e, "smi2021_3e.bin", 0⟩ (by simp [available_fw])
    simpa [ENOENT] using this
  · have := h ⟨0x3f, "smi2021_3f.bin", 0⟩ (by simp [available_fw])
    simpa [ENOENT] using this

/-- Default descriptor used when indexing the descriptor table. -/
def dfltFw : Fw := ⟨0, "", -1⟩

/-- The registration-order postcondition of the probe: the loaded-image table
    holds the present variants' images in catalog order followed by NULL
    slots, `firmwares` is one less than the number present, and each present
    descriptor's recorded slot holds exactly the image loaded for it. -/
def RegOrder (L : String → LoadResult) : Prop :=
  (probeAll L).2.firmware =
      (oksOf L).map some ++ List.replicate (3 - (oksOf L).length) none
  ∧ (probeAll L).2.firmwares = ((oksOf L).length : Int) - 1
  ∧ ∀ i, i < 3 → ∀ d, okOf L ((available_fw.getD i dfltFw).name) = some d →
      0 ≤ ((probeAll L).2.avail.getD i dfltFw).found ∧
      (probeAll L).2.firmware.getD
        (((probeAll L).2.avail.getD i dfltFw).found.toNat) none = some d

/-- C6: a probe loop that completes without abort leaves the loaded-image
    table in registration order and descriptor slots consistent with it. -/
theorem probe_registration_order (L : String → LoadResult)
    (hok : (probeAll L).1 = none) : RegOrder L := by
  obtain ⟨c1, c2, c3⟩ := loader_cases L hok
  rcases c1 with h1 | ⟨d1, h1⟩ <;> rcases c2 with h2 | ⟨d2, h2⟩ <;>
    rcases c3 with h3 | ⟨d3, h3⟩ <;>
  · refine ⟨?_, ?_, ?_⟩
    · simp [probeAll, probeLoop, initState, available_fw, oksOf, okOf,
        ENOENT, h1, h2, h3]
    · simp [probeAll, probeLoop, initState, available_fw, oksOf, okOf,
        ENOENT, h1, h2, h3]
    · intro i hi d hd
      interval_cases i <;>
        simp_all [probeAll, probeLoop, initState, available_fw, oksOf, okOf,
          dfltFw, ENOENT, h1, h2, h3]

/-- Witness for `probe_registration_order`: with the 0x3c and 0x3f files
    present and 0x3e missing, slots 0 and 1 hold their images in order. -/
theorem probe_registration_order_witness : RegOrder loaderTwo :=
  probe_registration_order loaderTwo (by decide)

/-- The selection decision table over the post-probe state: zero variants
    present gives no-firmware; exactly one gives the automatic upload of that
    image whatever the preference; two or more with a preference naming a
    present variant gives the upload of that variant's image; two or more with
    any other preference gives the ambiguous outcome and the probe performs no
    control transfer at all. -/
def DecisionTable (L : String → LoadResult) (pref : Nat) : Prop :=
  ((oksOf L).length = 0 → ∀ p, smi2021_select p (probeAll L).2 = .noFw)
  ∧ ((oksOf L).length = 1 →
      ∀ p, smi2021_select p (probeAll L).2 = .auto (some ((oksOf L).getD 0 [])))
  ∧ (2 ≤ (oksOf L).length → pref ∈ presentIds L →
      smi2021_select pref (probeAll L).2 = .chosen (imageFor L pref))
  ∧ (2 ≤ (oksOf L).length → pref ∉ presentIds L →
      smi2021_select pref (probeAll L).2 = .ambiguous ∧
      ∀ dev, smi2021_bootloader_probe L pref dev initState = (0, [], (probeAll L).2))

/-- C5: after a probe loop that completed without abort, the selection follows
    the decision table exactly. -/
theorem select_decision_table (L : String → LoadResult) (pref : Nat)
    (hok : (probeAll L).1 = none) : DecisionTable L pref := by
  obtain ⟨c1, c2, c3⟩ := loader_cases L hok
  rcases c1 with h1 | ⟨d1, h1⟩ <;> rcases c2 with h2 | ⟨d2, h2⟩ <;>
    rcases c3 with h3 | ⟨d3, h3⟩ <;>
  · refine ⟨?_, ?_, ?_, ?_⟩
    · intro hlen p
      simp_all [probeAll, probeLoop, initState, available_fw, oksOf, okOf,
        smi2021_select, chooseLoop, ENOENT, h1, h2, h3]
    · intro hlen p
      simp_all [probeAll, probeLoop, initState, available_fw, oksOf, okOf,
        smi2021_select, chooseLoop, ENOENT, h1, h2, h3]
    · intro hlen hmem
      first
      | (simp [oksOf, okOf, available_fw, h1, h2, h3] at hlen
         done)
      | (simp [presentIds, available_fw, okOf, h1, h2, h3] at hmem
         rcases hmem with rfl | rfl
         <;> simp [probeAll, probeLoop, initState, available_fw,
               smi2021_select, chooseLoop, imageFor, List.find?, okOf,
               ENOENT, h1, h2, h3])
      | (simp [presentIds, available_fw, okOf, h1, h2, h3] at hmem
         rcases hmem with rfl | rfl | rfl
         <;> simp [probeAll, probeLoop, initState, available_fw,
               smi2021_select, chooseLoop, imageFor, List.find?, okOf,
               ENOENT, h1, h2, h3])
    · intro hlen hmem
      first
      | (simp [oksOf, okOf, available_fw, h1, h2, h3] at hlen
         done)
      | (simp [presentIds, available_fw, okOf, h1, h2, h3] at hmem
         refine ⟨?_, fun dev => ?_⟩
         · simp_all [probeAll, probeLoop, initState, available_fw,
             smi2021_select, chooseLoop, ENOENT]
         · simp_all [probeAll, probeLoop, initState, available_fw,
             smi2021_bootloader_probe, smi2021_select, chooseLoop, ENOENT])

/-- Witness for `select_decision_table`: two variants present (0x3c, 0x3f) and
    preference 0x3f. -/
theorem select_decision_table_witness : DecisionTable loaderTwo 0x3f :=
  select_decision_table loaderTwo 0x3f (by decide)

/-- The teardown postcondition after a successful probe: the released slot
    indices are exactly 0 .. k-1 in order (every loaded image released exactly
    once), every image slot is NULL afterwards, every descriptor is absent,
    the counter is reset, and a second teardown changes nothing and releases
    nothing. -/
def TeardownSpec (L : String → LoadResult) : Prop :=
  (smi2021_bootloader_disconnect (probeAll L).2).2 = List.range (oksOf L).length
  ∧ (smi2021_bootloader_disconnect (probeAll L).2).1.firmware = [none, none, none]
  ∧ (∀ f ∈ (smi2021_bootloader_disconnect (probeAll L).2).1.avail, f.found = -1)
  ∧ (smi2021_bootloader_disconnect (probeAll L).2).1.firmwares = -1
  ∧ smi2021_bootloader_disconnect (smi2021_bootloader_disconnect (probeAll L).2).1 =
      ((smi2021_bootloader_disconnect (probeAll L).2).1, [])

/-- C8: teardown after a completed probe releases each loaded image exactly
    once, clears all slots and descriptors, resets the counter, and is
    idempotent. -/
theorem disconnect_clears_and_idempotent (L : String → LoadResult)
    (hok : (probeAll L).1 = none) : TeardownSpec L := by
  obtain ⟨c1, c2, c3⟩ := loader_cases L hok
  rcases c1 with h1 | ⟨d1, h1⟩ <;> rcases c2 with h2 | ⟨d2, h2⟩ <;>
    rcases c3 with h3 | ⟨d3, h3⟩ <;>
  · refine ⟨?_, ?_, ?_, ?_, ?_⟩ <;>
      simp [TeardownSpec, probeAll, probeLoop, initState, available_fw,
        oksOf, okOf, smi2021_bootloader_disconnect, disconnectLoop,
        List.range_succ, ENOENT, h1, h2, h3]

/-- Witness for `disconnect_clears_and_idempotent`: teardown after probing
    with the 0x3c and 0x3f files present. -/
theorem disconnect_clears_and_idempotent_witness : TeardownSpec loaderTwo :=
  disconnect_clears_and_idempotent loaderTwo (by decide)
